import Mathlib

/-
Verification of the incremental fetch-and-merge pipeline of the
portfolio-manager repository.

The development shallowly embeds the Python sources:
  * backend/data_pipeline/data_sources/base.py   (DataFetcher.save_series_data,
    DataFetcher.make_request_with_backoff, the BigQuery MERGE statement)
  * backend/data_pipeline/tasks.py               (fetch_and_store_single_series,
    fetch_and_store_multiple_series)
  * backend/data_fetch/data_sources/fred.py      (FREDFetcher.parse_series_data)
  * backend/data_fetch/data_sources/polygon.py   (PolygonFetcher.parse_series_data)
  * backend/data_pipeline/data_sources/csv.py    (CSVFetcher.fetch_series_data)

Modelling conventions:
  * Calendar dates are day numbers (Nat).  The Python code stores dates as
    ISO-8601 `YYYY-MM-DD` strings and compares them with string comparison,
    which agrees with chronological order, so `Nat` comparison is faithful;
    `datetime + timedelta(days=1)` becomes `+ 1`.
  * Python floats carrying data values are modelled as rationals (`Rat`);
    none of the verified properties depend on rounding.
  * External effects (HTTP fetches, BigQuery jobs, the ORM) are supplied as
    explicit oracles; a raised Python exception is an `Except.error`.
  * A function that both mutates state and may raise returns the state
    reached at the point of the raise together with the outcome, mirroring
    the partial side effects a raised exception leaves behind.
-/

/-! ### Warehouse rows and the BigQuery MERGE

`economic_observations(series_id, date, value)` and
`financial_observations(series_id, date, open, high, low, close, volume)`.
The MERGE statement in `save_series_data` is

  MERGE prod T USING staging S
  ON T.series_id = S.series_id AND T.date = S.date
  WHEN NOT MATCHED THEN INSERT ...

i.e. insert-only on the key (series_id, date): a staging row whose key
already occurs in the destination is ignored, never updated. -/

structure EconRow where
  series_id : String
  date : Nat
  value : Rat
deriving DecidableEq, Repr

structure FinRow where
  series_id : String
  date : Nat
  open_ : Rat
  high : Rat
  low : Rat
  close : Rat
  volume : Int
deriving DecidableEq, Repr

def econKey (r : EconRow) : String × Nat := (r.series_id, r.date)

def finKey (r : FinRow) : String × Nat := (r.series_id, r.date)

/-- Predicate of the MERGE `ON` clause: some destination row carries key `k`. -/
def keyMatched {α : Type} (key : α → String × Nat) (dest : List α) (k : String × Nat) : Bool :=
  dest.any fun r => decide (key r = k)

/-- The insert-only MERGE: every staging row whose key is not matched in the
destination is appended; matched staging rows are dropped (`WHEN NOT MATCHED
THEN INSERT` with no `WHEN MATCHED` clause). -/
def mergeInsertOnly {α : Type} (key : α → String × Nat) (dest staging : List α) : List α :=
  dest ++ staging.filter fun s => !(keyMatched key dest (key s))

/-- Number of rows a MERGE of `staging` into `dest` inserts. -/
def rowsInserted {α : Type} (key : α → String × Nat) (dest staging : List α) : Nat :=
  (staging.filter fun s => !(keyMatched key dest (key s))).length

theorem mem_mergeInsertOnly {α : Type} (key : α → String × Nat) (dest staging : List α)
    (r : α) (h : r ∈ mergeInsertOnly key dest staging) : r ∈ dest ∨ r ∈ staging := by
  rcases List.mem_append.mp h with h1 | h2
  · exact Or.inl h1
  · exact Or.inr (List.mem_filter.mp h2).1

theorem keyMatched_mono {α : Type} (key : α → String × Nat) (dest ext : List α)
    (k : String × Nat) (h : keyMatched key dest k = true) :
    keyMatched key (dest ++ ext) k = true := by
  rcases List.any_eq_true.mp h with ⟨r, hr, hk⟩
  exact List.any_eq_true.mpr ⟨r, List.mem_append_left _ hr, hk⟩

theorem keyMatched_of_mem {α : Type} (key : α → String × Nat) (dest : List α)
    (r : α) (h : r ∈ dest) : keyMatched key dest (key r) = true :=
  List.any_eq_true.mpr ⟨r, h, decide_eq_true rfl⟩

/-- C1.  The MERGE is insert-only and idempotent: (i) destination rows all
survive, (ii) a staging row whose key is absent from the destination is
inserted, (iii) every result row is either an untouched destination row or a
newly inserted staging row whose key was absent (so matched rows are never
updated), (iv) re-merging the same staging batch inserts zero rows, and
(v) leaves the table unchanged.  (The model has no failure case: a
NOT-MATCHED-only MERGE raises no multi-match error.) -/
theorem merge_insert_only_idempotent {α : Type} (key : α → String × Nat)
    (dest staging : List α) :
    (∀ r ∈ dest, r ∈ mergeInsertOnly key dest staging) ∧
    (∀ s ∈ staging, keyMatched key dest (key s) = false → s ∈ mergeInsertOnly key dest staging) ∧
    (∀ r ∈ mergeInsertOnly key dest staging,
        r ∈ dest ∨ (r ∈ staging ∧ keyMatched key dest (key r) = false)) ∧
    rowsInserted key (mergeInsertOnly key dest staging) staging = 0 ∧
    mergeInsertOnly key (mergeInsertOnly key dest staging) staging =
      mergeInsertOnly key dest staging := by
  have hmem : ∀ s ∈ staging, keyMatched key dest (key s) = false →
      s ∈ mergeInsertOnly key dest staging := by
    intro s hs hk
    refine List.mem_append_right _ (List.mem_filter.mpr ⟨hs, ?_⟩)
    simp [hk]
  have hnil : (staging.filter fun s =>
      !(keyMatched key (mergeInsertOnly key dest staging) (key s))) = [] := by
    refine List.filter_eq_nil_iff.mpr ?_
    intro s hs
    by_cases hk : keyMatched key dest (key s) = true
    · have h2 : keyMatched key (mergeInsertOnly key dest staging) (key s) = true :=
        keyMatched_mono key dest
          (staging.filter fun s => !(keyMatched key dest (key s))) (key s) hk
      simp [h2]
    · have hk' : keyMatched key dest (key s) = false := by
        cases h : keyMatched key dest (key s)
        · rfl
        · exact absurd h hk
      have hin : s ∈ mergeInsertOnly key dest staging := hmem s hs hk'
      have := keyMatched_of_mem key _ s hin
      simp [this]
  refine ⟨?_, hmem, ?_, ?_, ?_⟩
  · intro r hr
    exact List.mem_append_left _ hr
  · intro r hr
    rcases List.mem_append.mp hr with h1 | h2
    · exact Or.inl h1
    · have := List.mem_filter.mp h2
      refine Or.inr ⟨this.1, ?_⟩
      have hb := this.2
      cases h : keyMatched key dest (key r)
      · rfl
      · rw [h] at hb; exact absurd hb (by simp)
  · have h0 : rowsInserted key (mergeInsertOnly key dest staging) staging =
        (staging.filter fun s =>
          !(keyMatched key (mergeInsertOnly key dest staging) (key s))).length := rfl
    rw [h0, hnil]
    rfl
  · have h0 : mergeInsertOnly key (mergeInsertOnly key dest staging) staging =
        mergeInsertOnly key dest staging ++ (staging.filter fun s =>
          !(keyMatched key (mergeInsertOnly key dest staging) (key s))) := rfl
    rw [h0, hnil, List.append_nil]

/-- Concrete witness for C1: a two-row staging batch against a one-row
destination sharing one key; the fresh key is inserted, the matched key is
untouched, and a second merge of the same batch inserts nothing. -/
theorem merge_insert_only_idempotent_witness :
    (⟨"GDP", 100, 5⟩ : EconRow) ∈
      mergeInsertOnly econKey [⟨"GDP", 99, 1⟩] [⟨"GDP", 99, 2⟩, ⟨"GDP", 100, 5⟩] ∧
    rowsInserted econKey
      (mergeInsertOnly econKey [⟨"GDP", 99, 1⟩] [⟨"GDP", 99, 2⟩, ⟨"GDP", 100, 5⟩])
      [⟨"GDP", 99, 2⟩, ⟨"GDP", 100, 5⟩] = 0 := by
  have h := merge_insert_only_idempotent econKey
    [⟨"GDP", 99, 1⟩] [⟨"GDP", 99, 2⟩, ⟨"GDP", 100, 5⟩]
  exact ⟨h.2.1 ⟨"GDP", 100, 5⟩ (by decide) (by decide), h.2.2.2.1⟩

/-! ### The series descriptor and `DataFetcher.save_series_data`

`dashboard.models.DataSeries` as used by the pipeline; the watermark is the
`last_fetched_date` entry of the descriptor's JSON metadata blob. -/

structure DataSeries where
  series_id : String
  name : String
  observation_start : String
  observation_end : String
  frequency : String
  units : String
  seasonal_adjustment : String
  notes : String
  data_type : String
  data_origin : String
  last_fetched_date : Option Nat
  last_updated : Nat
deriving DecidableEq, Repr

/-- A parsed observation as consumed by `save_series_data`: a dict whose
optional fields model the presence or absence of the corresponding key
(`obs.get(k, 0)` defaults a missing key to zero). -/
structure Observation where
  date : Nat
  value : Option Rat
  open_ : Option Rat
  high : Option Rat
  low : Option Rat
  close : Option Rat
  volume : Option Int
deriving DecidableEq, Repr

/-- A live BigQuery staging table together with the rows loaded into it. -/
inductive StagingTable where
  | econTable (rows : List EconRow)
  | finTable (rows : List FinRow)
deriving DecidableEq, Repr

structure Warehouse where
  econ : List EconRow
  fin : List FinRow
  staging : List StagingTable
deriving DecidableEq, Repr

/-- Oracles for the external effects of one `save_series_data` call: the
current date, the outcome of `self.fetch_series_data`, whether the staging
load job and the MERGE job succeed, and the timestamp written to
`last_updated`. -/
structure FetchEnv where
  today : Nat
  fetchResult : Except Unit (List Observation)
  loadOk : Bool
  mergeOk : Bool
  now_ts : Nat

/-- Date-range resolution of `save_series_data`: an initial fetch (and a
descriptor without watermark) starts 5 years back; a descriptor with
watermark `lf` starts the day after (`strptime(lf) + timedelta(days=1)`). -/
def resolve_start_date (initial_fetch : Bool) (last_fetched_date : Option Nat)
    (today : Nat) : Nat :=
  if initial_fetch then today - 5 * 365
  else
    match last_fetched_date with
    | some lf => lf + 1
    | none => today - 5 * 365

/-- The staging-loop guard: `if not initial_fetch: lf = metadata.get('last_fetched_date');
if lf and obs['date'] <= lf: continue`.  Returns true when the observation is
kept. -/
def stage_keep (initial_fetch : Bool) (lf : Option Nat) (d : Nat) : Bool :=
  if initial_fetch then true
  else
    match lf with
    | some l => decide (l < d)
    | none => true

/-- Staging-row construction for a financial observation: every absent field
defaults to zero via `obs.get(k, 0)`. -/
def build_fin_row (series_id : String) (obs : Observation) : FinRow :=
  { series_id := series_id
    date := obs.date
    open_ := obs.open_.getD 0
    high := obs.high.getD 0
    low := obs.low.getD 0
    close := obs.close.getD 0
    volume := obs.volume.getD 0 }

/-- Staging-row construction for an economic observation: a missing `value`
key defaults to zero via `obs.get('value', 0)`. -/
def build_econ_row (series_id : String) (obs : Observation) : EconRow :=
  { series_id := series_id
    date := obs.date
    value := obs.value.getD 0 }

def staging_rows_fin (inst : DataSeries) (initial_fetch : Bool)
    (observations : List Observation) : List FinRow :=
  (observations.filter fun o =>
    stage_keep initial_fetch inst.last_fetched_date o.date).map
      (build_fin_row inst.series_id)

def staging_rows_econ (inst : DataSeries) (initial_fetch : Bool)
    (observations : List Observation) : List EconRow :=
  (observations.filter fun o =>
    stage_keep initial_fetch inst.last_fetched_date o.date).map
      (build_econ_row inst.series_id)

/-- `max(row['date'] for row in staging_rows)` over financial staging rows
(the Python `max` of a nonempty list; the fold base 0 is only reached on an
empty list, which `save_series_data` rules out). -/
def max_date_fin (rows : List FinRow) : Nat :=
  rows.foldl (fun m r => max m r.date) 0

def max_date_econ (rows : List EconRow) : Nat :=
  rows.foldl (fun m r => max m r.date) 0

/-- Shallow embedding of `DataFetcher.save_series_data`.  Returns the final
warehouse, the final descriptor, and `Except.error ()` when the Python code
raises.  Control flow mirrors the source: resolve the date range, short
circuit when already current, fetch (re-raising failures), build staging rows
(skipping dates at or below the watermark on non-initial fetches), return
early when nothing to stage, create and load the staging table, run the
insert-only MERGE, delete the staging table, and only then advance
`last_fetched_date` to the max staged date and touch `last_updated`.  On the
success path the staging table list is unchanged (created then deleted); on a
load or MERGE failure the raised exception leaves the staging table behind
(there is no try/finally around the cleanup). -/
def save_series_data (env : FetchEnv) (inst : DataSeries) (initial_fetch : Bool)
    (wh : Warehouse) : Warehouse × DataSeries × Except Unit Unit :=
  if resolve_start_date initial_fetch inst.last_fetched_date env.today > env.today then
    (wh, inst, Except.ok ())
  else
    match env.fetchResult with
    | Except.error _ => (wh, inst, Except.error ())
    | Except.ok observations =>
      if observations = [] then (wh, inst, Except.ok ())
      else if inst.data_type = "financial" then
        if staging_rows_fin inst initial_fetch observations = [] then (wh, inst, Except.ok ())
        else if env.loadOk = false then
          ({ wh with staging := wh.staging ++
              [StagingTable.finTable (staging_rows_fin inst initial_fetch observations)] },
            inst, Except.error ())
        else if env.mergeOk = false then
          ({ wh with staging := wh.staging ++
              [StagingTable.finTable (staging_rows_fin inst initial_fetch observations)] },
            inst, Except.error ())
        else
          ({ wh with fin :=
              mergeInsertOnly finKey wh.fin (staging_rows_fin inst initial_fetch observations) },
            { inst with
                last_fetched_date :=
                  some (max_date_fin (staging_rows_fin inst initial_fetch observations)),
                last_updated := env.now_ts },
            Except.ok ())
      else
        if staging_rows_econ inst initial_fetch observations = [] then (wh, inst, Except.ok ())
        else if env.loadOk = false then
          ({ wh with staging := wh.staging ++
              [StagingTable.econTable (staging_rows_econ inst initial_fetch observations)] },
            inst, Except.error ())
        else if env.mergeOk = false then
          ({ wh with staging := wh.staging ++
              [StagingTable.econTable (staging_rows_econ inst initial_fetch observations)] },
            inst, Except.error ())
        else
          ({ wh with econ :=
              mergeInsertOnly econKey wh.econ (staging_rows_econ inst initial_fetch observations) },
            { inst with
                last_fetched_date :=
                  some (max_date_econ (staging_rows_econ inst initial_fetch observations)),
                last_updated := env.now_ts },
            Except.ok ())

theorem staging_rows_econ_keep (inst : DataSeries) (init : Bool)
    (observations : List Observation) :
    ∀ r ∈ staging_rows_econ inst init observations,
      stage_keep init inst.last_fetched_date r.date = true := by
  intro r hr
  rcases List.mem_map.mp hr with ⟨o, ho, rfl⟩
  exact (List.mem_filter.mp ho).2

theorem staging_rows_fin_keep (inst : DataSeries) (init : Bool)
    (observations : List Observation) :
    ∀ r ∈ staging_rows_fin inst init observations,
      stage_keep init inst.last_fetched_date r.date = true := by
  intro r hr
  rcases List.mem_map.mp hr with ⟨o, ho, rfl⟩
  exact (List.mem_filter.mp ho).2

/-- Exhaustive case analysis of `save_series_data`: either an early return
with warehouse and descriptor untouched, a raise with warehouse and
descriptor untouched, or — once a nonempty batch was staged — a raise that
leaves the staging table behind, or a completed merge followed by the
watermark advance. -/
theorem save_series_data_shape (env : FetchEnv) (inst : DataSeries) (init : Bool)
    (wh : Warehouse) :
    save_series_data env inst init wh = (wh, inst, Except.ok ()) ∨
    save_series_data env inst init wh = (wh, inst, Except.error ()) ∨
    (∃ observations, env.fetchResult = Except.ok observations ∧
      ((inst.data_type = "financial" ∧ staging_rows_fin inst init observations ≠ [] ∧
        (save_series_data env inst init wh =
            ({ wh with staging := wh.staging ++
                [StagingTable.finTable (staging_rows_fin inst init observations)] },
              inst, Except.error ()) ∨
          (env.loadOk = true ∧ env.mergeOk = true ∧
            save_series_data env inst init wh =
              ({ wh with fin :=
                  mergeInsertOnly finKey wh.fin (staging_rows_fin inst init observations) },
                { inst with
                    last_fetched_date :=
                      some (max_date_fin (staging_rows_fin inst init observations)),
                    last_updated := env.now_ts },
                Except.ok ())))) ∨
       (inst.data_type ≠ "financial" ∧ staging_rows_econ inst init observations ≠ [] ∧
        (save_series_data env inst init wh =
            ({ wh with staging := wh.staging ++
                [StagingTable.econTable (staging_rows_econ inst init observations)] },
              inst, Except.error ()) ∨
          (env.loadOk = true ∧ env.mergeOk = true ∧
            save_series_data env inst init wh =
              ({ wh with econ :=
                  mergeInsertOnly econKey wh.econ (staging_rows_econ inst init observations) },
                { inst with
                    last_fetched_date :=
                      some (max_date_econ (staging_rows_econ inst init observations)),
                    last_updated := env.now_ts },
                Except.ok ())))))) := by
  unfold save_series_data
  split
  · exact Or.inl rfl
  · split
    · exact Or.inr (Or.inl rfl)
    · rename_i observations heq
      split
      · exact Or.inl rfl
      · rename_i hobs
        split
        · rename_i hfin
          split
          · exact Or.inl rfl
          · rename_i hrows
            split
            · exact Or.inr (Or.inr ⟨observations, heq,
                Or.inl ⟨hfin, hrows, Or.inl rfl⟩⟩)
            · rename_i hload
              split
              · exact Or.inr (Or.inr ⟨observations, heq,
                  Or.inl ⟨hfin, hrows, Or.inl rfl⟩⟩)
              · rename_i hmerge
                exact Or.inr (Or.inr ⟨observations, heq,
                  Or.inl ⟨hfin, hrows, Or.inr
                    ⟨eq_true_of_ne_false (fun hc => hload hc),
                     eq_true_of_ne_false (fun hc => hmerge hc), rfl⟩⟩⟩)
        · rename_i hfin
          split
          · exact Or.inl rfl
          · rename_i hrows
            split
            · exact Or.inr (Or.inr ⟨observations, heq,
                Or.inr ⟨hfin, hrows, Or.inl rfl⟩⟩)
            · rename_i hload
              split
              · exact Or.inr (Or.inr ⟨observations, heq,
                  Or.inr ⟨hfin, hrows, Or.inl rfl⟩⟩)
              · rename_i hmerge
                exact Or.inr (Or.inr ⟨observations, heq,
                  Or.inr ⟨hfin, hrows, Or.inr
                    ⟨eq_true_of_ne_false (fun hc => hload hc),
                     eq_true_of_ne_false (fun hc => hmerge hc), rfl⟩⟩⟩)

/-- C2.  For a descriptor carrying watermark `D`, a non-initial run computes
the fetch window start `D + 1` (the day after the watermark), every staged
row — economic or financial — has date strictly greater than `D`, and every
row the run adds to a permanent table has date strictly greater than `D`. -/
theorem incremental_fetch_window_and_filter (env : FetchEnv) (inst : DataSeries)
    (wh : Warehouse) (D : Nat) (hD : inst.last_fetched_date = some D) :
    resolve_start_date false inst.last_fetched_date env.today = D + 1 ∧
    (∀ observations, ∀ r ∈ staging_rows_econ inst false observations, D < r.date) ∧
    (∀ observations, ∀ r ∈ staging_rows_fin inst false observations, D < r.date) ∧
    (∀ r ∈ (save_series_data env inst false wh).1.econ, r ∈ wh.econ ∨ D < r.date) ∧
    (∀ r ∈ (save_series_data env inst false wh).1.fin, r ∈ wh.fin ∨ D < r.date) := by
  have hkeep : ∀ d : Nat, stage_keep false inst.last_fetched_date d = true → D < d := by
    intro d hd
    rw [hD] at hd
    exact of_decide_eq_true (show decide (D < d) = true from hd)
  have hecon : ∀ observations, ∀ r ∈ staging_rows_econ inst false observations,
      D < r.date := by
    intro observations r hr
    exact hkeep r.date (staging_rows_econ_keep inst false observations r hr)
  have hfin : ∀ observations, ∀ r ∈ staging_rows_fin inst false observations,
      D < r.date := by
    intro observations r hr
    exact hkeep r.date (staging_rows_fin_keep inst false observations r hr)
  refine ⟨by simp [resolve_start_date, hD], hecon, hfin, ?_, ?_⟩
  · intro r hr
    rcases save_series_data_shape env inst false wh with h | h | ⟨obs, _, hc⟩
    · rw [h] at hr; exact Or.inl hr
    · rw [h] at hr; exact Or.inl hr
    · rcases hc with ⟨_, _, h | ⟨_, _, h⟩⟩ | ⟨_, _, h | ⟨_, _, h⟩⟩ <;> rw [h] at hr
      · exact Or.inl hr
      · exact Or.inl hr
      · exact Or.inl hr
      · rcases mem_mergeInsertOnly econKey wh.econ _ r hr with h1 | h2
        · exact Or.inl h1
        · exact Or.inr (hecon obs r h2)
  · intro r hr
    rcases save_series_data_shape env inst false wh with h | h | ⟨obs, _, hc⟩
    · rw [h] at hr; exact Or.inl hr
    · rw [h] at hr; exact Or.inl hr
    · rcases hc with ⟨_, _, h | ⟨_, _, h⟩⟩ | ⟨_, _, h | ⟨_, _, h⟩⟩ <;> rw [h] at hr
      · exact Or.inl hr
      · rcases mem_mergeInsertOnly finKey wh.fin _ r hr with h1 | h2
        · exact Or.inl h1
        · exact Or.inr (hfin obs r h2)
      · exact Or.inl hr
      · exact Or.inl hr

/-- C3.  The watermark only moves after a committed merge: when the run
raises, the descriptor is returned unchanged; whenever the descriptor did
change, both the staging load and the merge succeeded and the run completed
normally; and a normal completion either leaves the descriptor unchanged or
advances `last_fetched_date` to the maximum staged date (touching only
`last_updated` besides). -/
theorem watermark_advances_only_after_merge (env : FetchEnv) (inst : DataSeries)
    (init : Bool) (wh : Warehouse) :
    ((save_series_data env inst init wh).2.2 = Except.error () →
      (save_series_data env inst init wh).2.1 = inst) ∧
    ((save_series_data env inst init wh).2.1 ≠ inst →
      env.loadOk = true ∧ env.mergeOk = true ∧
      (save_series_data env inst init wh).2.2 = Except.ok ()) ∧
    (∀ observations, env.fetchResult = Except.ok observations →
      (save_series_data env inst init wh).2.2 = Except.ok () →
      (save_series_data env inst init wh).2.1 = inst ∨
      (save_series_data env inst init wh).2.1 =
        { inst with
            last_fetched_date :=
              some (if inst.data_type = "financial"
                then max_date_fin (staging_rows_fin inst init observations)
                else max_date_econ (staging_rows_econ inst init observations)),
            last_updated := env.now_ts }) := by
  rcases save_series_data_shape env inst init wh with h | h | ⟨obs, hobs, hc⟩
  · rw [h]
    exact ⟨fun hc => rfl, fun hne => absurd rfl hne, fun _ _ _ => Or.inl rfl⟩
  · rw [h]
    refine ⟨fun _ => rfl, fun hne => absurd rfl hne, fun _ _ hk => ?_⟩
    exact absurd hk (by simp)
  · rcases hc with ⟨hfin, _, h | ⟨hl, hm, h⟩⟩ | ⟨hfin, _, h | ⟨hl, hm, h⟩⟩ <;> rw [h]
    · refine ⟨fun _ => rfl, fun hne => absurd rfl hne, fun _ _ hk => ?_⟩
      exact absurd hk (by simp)
    · refine ⟨fun hc => absurd hc (by simp), fun _ => ⟨hl, hm, rfl⟩,
        fun observations hobs2 _ => Or.inr ?_⟩
      rw [hobs] at hobs2
      cases Except.ok.inj hobs2
      simp [hfin]
    · refine ⟨fun _ => rfl, fun hne => absurd rfl hne, fun _ _ hk => ?_⟩
      exact absurd hk (by simp)
    · refine ⟨fun hc => absurd hc (by simp), fun _ => ⟨hl, hm, rfl⟩,
        fun observations hobs2 _ => Or.inr ?_⟩
      rw [hobs] at hobs2
      cases Except.ok.inj hobs2
      simp [if_neg hfin]

/-- C7 amended.  The staging table is released only on the success path:
when `save_series_data` completes without raising, no staging table created
by the run outlives it (the table was created and then deleted). -/
theorem staging_released_only_on_success (env : FetchEnv) (inst : DataSeries)
    (init : Bool) (wh : Warehouse)
    (h : (save_series_data env inst init wh).2.2 = Except.ok ()) :
    (save_series_data env inst init wh).1.staging = wh.staging := by
  rcases save_series_data_shape env inst init wh with hs | hs | ⟨obs, _, hc⟩
  · simp [hs]
  · rw [hs] at h; exact absurd h (by simp)
  · rcases hc with ⟨_, _, hs | ⟨_, _, hs⟩⟩ | ⟨_, _, hs | ⟨_, _, hs⟩⟩ <;>
      rw [hs] at h ⊢ <;>
        first
          | rfl
          | exact absurd h (by simp)

/-! ### Concrete fixtures -/

def instGDP : DataSeries :=
  { series_id := "GDP", name := "Gross Domestic Product",
    observation_start := "1947-01-01", observation_end := "2024-01-01",
    frequency := "Quarterly", units := "Billions of Dollars",
    seasonal_adjustment := "N/A", notes := "", data_type := "economic",
    data_origin := "fred", last_fetched_date := none, last_updated := 0 }

/-- The descriptor with a watermark at day 10000. -/
def instGDPw : DataSeries := { instGDP with last_fetched_date := some 10000 }

def obsOne : Observation :=
  { date := 11000, value := some 5, open_ := none, high := none, low := none,
    close := none, volume := none }

def whEmpty : Warehouse := { econ := [], fin := [], staging := [] }

/-- A run whose fetch yields one observation and whose MERGE job fails. -/
def envMergeFails : FetchEnv :=
  { today := 11000, fetchResult := Except.ok [obsOne], loadOk := true,
    mergeOk := false, now_ts := 1 }

/-- A run whose fetch yields one observation and whose load and MERGE both
succeed. -/
def envMergeOk : FetchEnv :=
  { today := 11000, fetchResult := Except.ok [obsOne], loadOk := true,
    mergeOk := true, now_ts := 1 }

/-- C7 counterexample.  When the MERGE job fails, `save_series_data` raises
before reaching `client.delete_table` (there is no try/finally), so the
staging table created for this run is still allocated when the run exits:
the claim that staging is destroyed regardless of merge outcome is false. -/
theorem staging_table_leaks_on_merge_failure :
    (save_series_data envMergeFails instGDP false whEmpty).1.staging =
      [StagingTable.econTable [{ series_id := "GDP", date := 11000, value := 5 }]] ∧
    (save_series_data envMergeFails instGDP false whEmpty).2.2 = Except.error () := by
  constructor <;> rfl

/-- Witness for the amended C7 at a successful run. -/
theorem staging_released_only_on_success_witness :
    (save_series_data envMergeOk instGDP false whEmpty).1.staging = whEmpty.staging :=
  staging_released_only_on_success envMergeOk instGDP false whEmpty (by rfl)

/-- Witness for C2 at a concrete watermarked descriptor. -/
theorem incremental_fetch_window_and_filter_witness :
    resolve_start_date false instGDPw.last_fetched_date envMergeOk.today = 10000 + 1 ∧
    (∀ observations, ∀ r ∈ staging_rows_econ instGDPw false observations,
      10000 < r.date) ∧
    (∀ observations, ∀ r ∈ staging_rows_fin instGDPw false observations,
      10000 < r.date) ∧
    (∀ r ∈ (save_series_data envMergeOk instGDPw false whEmpty).1.econ,
      r ∈ whEmpty.econ ∨ 10000 < r.date) ∧
    (∀ r ∈ (save_series_data envMergeOk instGDPw false whEmpty).1.fin,
      r ∈ whEmpty.fin ∨ 10000 < r.date) :=
  incremental_fetch_window_and_filter envMergeOk instGDPw whEmpty 10000 (by rfl)

/-- Witness for C3: the failing run returns the descriptor unchanged, the
successful run advances the watermark to the staged maximum date. -/
theorem watermark_advances_only_after_merge_witness :
    (save_series_data envMergeFails instGDP false whEmpty).2.1 = instGDP ∧
    ((save_series_data envMergeOk instGDP false whEmpty).2.1 = instGDP ∨
      (save_series_data envMergeOk instGDP false whEmpty).2.1 =
        { instGDP with
            last_fetched_date :=
              some (if instGDP.data_type = "financial"
                then max_date_fin (staging_rows_fin instGDP false [obsOne])
                else max_date_econ (staging_rows_econ instGDP false [obsOne])),
            last_updated := envMergeOk.now_ts }) :=
  ⟨(watermark_advances_only_after_merge envMergeFails instGDP false whEmpty).1 (by rfl),
    (watermark_advances_only_after_merge envMergeOk instGDP false whEmpty).2.2
      [obsOne] (by rfl) (by rfl)⟩

/-- C9.  Staging-row construction replaces every absent observation field by
zero (`float(obs.get(k, 0))`, `int(obs.get('volume', 0))`): a financial
observation lacking open/high/low/close/volume is staged with zeroes, and an
economic observation lacking the `value` key is staged with value 0. -/
theorem missing_fields_staged_as_zero (series_id : String) (d : Nat) :
    build_fin_row series_id
        { date := d, value := none, open_ := none, high := none, low := none,
          close := none, volume := none } =
      { series_id := series_id, date := d, open_ := 0, high := 0, low := 0,
        close := 0, volume := 0 } ∧
    build_econ_row series_id
        { date := d, value := none, open_ := none, high := none, low := none,
          close := none, volume := none } =
      { series_id := series_id, date := d, value := 0 } :=
  ⟨rfl, rfl⟩

/-! ### `DataFetcher.make_request_with_backoff`

The Python loop runs attempts `1 .. max_retries`; a failed attempt re-raises
when `attempt == max_retries` and otherwise sleeps
`backoff_factor * 2 ** (attempt - 1)` seconds and retries.  The oracle
`succeeds n` tells whether the `n`-th GET attempt succeeds.  `backoff_factor`
is a rational; the Python default `0.3` is modelled as `3/10`.  The fuel
argument is `max_retries` at the top-level call, which the loop never
exhausts; recursion on it keeps the function structural. -/

structure BackoffResult where
  ok : Bool
  attempts : Nat
  totalSleep : Rat
deriving DecidableEq, Repr

def backoff_go (succeeds : Nat → Bool) (max_retries : Nat) (backoff_factor : Rat) :
    Nat → Nat → Rat → BackoffResult
  | 0, attempt, slept => { ok := false, attempts := attempt, totalSleep := slept }
  | fuel + 1, attempt, slept =>
    if succeeds attempt then { ok := true, attempts := attempt, totalSleep := slept }
    else if max_retries ≤ attempt then
      { ok := false, attempts := attempt, totalSleep := slept }
    else
      backoff_go succeeds max_retries backoff_factor fuel (attempt + 1)
        (slept + backoff_factor * 2 ^ (attempt - 1))

def make_request_with_backoff (succeeds : Nat → Bool) (max_retries : Nat)
    (backoff_factor : Rat) : BackoffResult :=
  backoff_go succeeds max_retries backoff_factor max_retries 1 0

def default_max_retries : Nat := 5

def default_backoff_factor : Rat := 3 / 10

theorem sum_shift_backoff (f : Rat) (a k : Nat) (ha : 1 ≤ a) :
    f * 2 ^ (a - 1) + ∑ i in Finset.range k, f * 2 ^ (a + i) =
      ∑ i in Finset.range (k + 1), f * 2 ^ (a - 1 + i) := by
  rw [Finset.sum_range_succ']
  have hcong : ∀ i ∈ Finset.range k, f * 2 ^ (a - 1 + (i + 1)) = f * 2 ^ (a + i) := by
    intro i _
    rw [show a - 1 + (i + 1) = a + i from by omega]
  rw [Finset.sum_congr rfl hcong, show a - 1 + 0 = a - 1 from by omega]
  ring

theorem backoff_go_succeeds_after (succeeds : Nat → Bool) (max_retries : Nat)
    (backoff_factor : Rat) :
    ∀ (k a fuel : Nat) (slept : Rat), 1 ≤ a → k < fuel → a + k ≤ max_retries →
      (∀ i, a ≤ i → i < a + k → succeeds i = false) → succeeds (a + k) = true →
      backoff_go succeeds max_retries backoff_factor fuel a slept =
        { ok := true, attempts := a + k,
          totalSleep := slept + ∑ i in Finset.range k, backoff_factor * 2 ^ (a - 1 + i) } := by
  intro k
  induction k with
  | zero =>
    intro a fuel slept ha hfuel hle hfail hsucc
    match fuel, hfuel with
    | fuel + 1, _ =>
      rw [backoff_go]
      rw [Nat.add_zero] at hsucc
      rw [hsucc]
      simp
  | succ k ih =>
    intro a fuel slept ha hfuel hle hfail hsucc
    match fuel, hfuel with
    | fuel + 1, hfuel =>
      have hfa : succeeds a = false := hfail a le_rfl (by omega)
      have hlt : ¬ max_retries ≤ a := by omega
      rw [backoff_go, hfa]
      rw [if_neg (by simp), if_neg hlt]
      have ihx := ih (a + 1) fuel (slept + backoff_factor * 2 ^ (a - 1)) (by omega)
        (by omega) (by omega)
        (fun i h1 h2 => hfail i (by omega) (by omega))
        (by rw [show a + 1 + k = a + (k + 1) from by omega]; exact hsucc)
      rw [ihx]
      simp only [BackoffResult.mk.injEq, Nat.add_sub_cancel]
      refine ⟨trivial, by omega, ?_⟩
      rw [add_assoc, sum_shift_backoff backoff_factor a k ha]

theorem backoff_go_exhausts (succeeds : Nat → Bool) (max_retries : Nat)
    (backoff_factor : Rat) (hall : ∀ i, succeeds i = false) :
    ∀ (k a fuel : Nat) (slept : Rat), 1 ≤ a → k < fuel → a + k = max_retries →
      backoff_go succeeds max_retries backoff_factor fuel a slept =
        { ok := false, attempts := max_retries,
          totalSleep := slept + ∑ i in Finset.range k, backoff_factor * 2 ^ (a - 1 + i) } := by
  intro k
  induction k with
  | zero =>
    intro a fuel slept ha hfuel hle
    match fuel, hfuel with
    | fuel + 1, _ =>
      rw [backoff_go, hall a]
      rw [if_neg (by simp), if_pos (by omega)]
      have ha2 : a = max_retries := by omega
      subst ha2
      simp
  | succ k ih =>
    intro a fuel slept ha hfuel hle
    match fuel, hfuel with
    | fuel + 1, hfuel =>
      have hlt : ¬ max_retries ≤ a := by omega
      rw [backoff_go, hall a]
      rw [if_neg (by simp), if_neg hlt]
      have ihx := ih (a + 1) fuel (slept + backoff_factor * 2 ^ (a - 1)) (by omega)
        (by omega) (by omega)
      rw [ihx]
      simp only [BackoffResult.mk.injEq, Nat.add_sub_cancel]
      refine ⟨trivial, trivial, ?_⟩
      rw [add_assoc, sum_shift_backoff backoff_factor a k ha]

/-- C4.  With `max_retries` attempts and backoff factor `backoff_factor`
(defaults 5 and 0.3): if the request fails on the first `N < max_retries`
attempts and succeeds on attempt `N + 1`, the call returns the successful
response after `N + 1` attempts having slept the sum of the first `N`
backoff terms `backoff_factor * 2 ^ (n - 1)`; if every attempt fails, the
call makes exactly `max_retries` attempts and re-raises the last failure,
sleeping only after the first `max_retries - 1` failures (no sleep after the
last one). -/
theorem make_request_with_backoff_spec (succeeds : Nat → Bool) (max_retries : Nat)
    (backoff_factor : Rat) (N : Nat) (hmax : 1 ≤ max_retries) :
    (N + 1 ≤ max_retries → (∀ i, 1 ≤ i → i ≤ N → succeeds i = false) →
      succeeds (N + 1) = true →
      make_request_with_backoff succeeds max_retries backoff_factor =
        { ok := true, attempts := N + 1,
          totalSleep := ∑ i in Finset.range N, backoff_factor * 2 ^ i }) ∧
    ((∀ i, succeeds i = false) →
      make_request_with_backoff succeeds max_retries backoff_factor =
        { ok := false, attempts := max_retries,
          totalSleep := ∑ i in Finset.range (max_retries - 1),
            backoff_factor * 2 ^ i }) := by
  constructor
  · intro hN hfail hsucc
    have h := backoff_go_succeeds_after succeeds max_retries backoff_factor N 1
      max_retries 0 le_rfl (by omega) (by omega)
      (fun i h1 h2 => hfail i h1 (by omega))
      (by rw [show 1 + N = N + 1 from by omega]; exact hsucc)
    rw [make_request_with_backoff, h]
    simp only [BackoffResult.mk.injEq]
    refine ⟨trivial, by omega, ?_⟩
    simp
  · intro hall
    have h := backoff_go_exhausts succeeds max_retries backoff_factor hall
      (max_retries - 1) 1 max_retries 0 le_rfl (by omega) (by omega)
    rw [make_request_with_backoff, h]
    simp

/-- Witness for C4 at the defaults `max_retries = 5`,
`backoff_factor = 3/10`: two failures then a success gives three attempts
and total sleep `3/10 + 6/10`; five failures give five attempts, failure,
and total sleep over the first four terms only. -/
theorem make_request_with_backoff_spec_witness :
    make_request_with_backoff (fun i => decide (i = 3)) default_max_retries
        default_backoff_factor =
      { ok := true, attempts := 3,
        totalSleep := ∑ i in Finset.range 2, default_backoff_factor * 2 ^ i } ∧
    make_request_with_backoff (fun _ => false) default_max_retries
        default_backoff_factor =
      { ok := false, attempts := 5,
        totalSleep := ∑ i in Finset.range 4, default_backoff_factor * 2 ^ i } :=
  ⟨(make_request_with_backoff_spec (fun i => decide (i = 3)) default_max_retries
      default_backoff_factor 2 (by decide)).1 (by decide)
      (fun i h1 h2 => by interval_cases i <;> rfl) (by decide),
    (make_request_with_backoff_spec (fun _ => false) default_max_retries
      default_backoff_factor 2 (by decide)).2 (fun i => rfl)⟩

/-! ### `FREDFetcher.parse_series_data`

FRED serialises observation values as strings (a missing value is "." or
the empty string); the parser requires the `date` and `value` keys, raises
on a null/empty/non-numeric value — logging at error level — and otherwise
appends `{date, value}` in response order.  Dates stay ISO strings here,
exactly as the source passes them through. -/

inductive JsonVal where
  | jnull
  | jstr (s : String)
deriving DecidableEq, Repr

/-- One entry of the response's `observations` array; `none` in a field
models the corresponding key being absent from the JSON object. -/
structure FredObs where
  date : Option String
  value : Option JsonVal
deriving DecidableEq, Repr

structure EconObs where
  date : String
  value : Rat
deriving DecidableEq, Repr

deriving instance DecidableEq for Except

def digitsToNat (cs : List Char) : Nat :=
  cs.foldl (fun a c => 10 * a + (c.toNat - '0'.toNat)) 0

/-- Leading and trailing whitespace removal (the strip Python `float`
applies to its argument). -/
def trimChars (cs : List Char) : List Char :=
  ((cs.dropWhile Char.isWhitespace).reverse.dropWhile Char.isWhitespace).reverse

/-- Model of Python `float(s)` on plain decimal literals
`[+-]digits[.digits]` / `[+-].digits` with surrounding whitespace stripped;
`none` exactly where `float` raises `ValueError` on such inputs — in
particular on FRED's missing-value marker "." and on non-numeric text. -/
def float_of_string (s : String) : Option Rat :=
  let cs := trimChars s.toList
  let signed : Int × List Char :=
    match cs with
    | '-' :: r => (-1, r)
    | '+' :: r => (1, r)
    | r => (1, r)
  let intPart := signed.2.takeWhile Char.isDigit
  let rest := signed.2.dropWhile Char.isDigit
  match rest with
  | [] =>
    if intPart = [] then none
    else some ((signed.1 * digitsToNat intPart : Int) : Rat)
  | '.' :: frac =>
    if frac.all Char.isDigit ∧ ¬(intPart = [] ∧ frac = []) then
      some ((signed.1 : Rat) *
        ((digitsToNat intPart : Rat) + (digitsToNat frac : Rat) / 10 ^ frac.length))
    else none
  | _ => none

/-- Per-entry body of the FRED parsing loop: missing keys, then empty/null
value, then `float(value_str)` failure, each raising `ValueError`. -/
def FREDFetcher.parse_obs (obs : FredObs) : Except String EconObs :=
  match obs.date, obs.value with
  | some date_str, some v =>
    match v with
    | JsonVal.jnull => Except.error "Missing value in observation."
    | JsonVal.jstr value_str =>
      if value_str = "" then Except.error "Missing value in observation."
      else
        match float_of_string value_str with
        | none => Except.error "Invalid value in observation."
        | some value => Except.ok { date := date_str, value := value }
  | _, _ => Except.error "Missing required keys in observation."

/-- The parsing loop over the `observations` array: entries are processed
in response order and the first raising entry aborts the whole parse. -/
def FREDFetcher.parse_series_data : List FredObs → Except String (List EconObs)
  | [] => Except.ok []
  | obs :: rest =>
    match FREDFetcher.parse_obs obs with
    | Except.error m => Except.error m
    | Except.ok row =>
      match FREDFetcher.parse_series_data rest with
      | Except.error m => Except.error m
      | Except.ok rows => Except.ok (row :: rows)

def fredNine : List FredObs :=
  [{ date := some "2020-01-01", value := some (JsonVal.jstr "1.0") },
   { date := some "2020-01-02", value := some (JsonVal.jstr "2.0") },
   { date := some "2020-01-03", value := some (JsonVal.jstr "3.0") },
   { date := some "2020-01-04", value := some (JsonVal.jstr "4.0") },
   { date := some "2020-01-05", value := some (JsonVal.jstr "5.0") },
   { date := some "2020-01-06", value := some (JsonVal.jstr "6.0") },
   { date := some "2020-01-07", value := some (JsonVal.jstr "7.0") },
   { date := some "2020-01-08", value := some (JsonVal.jstr "8.0") },
   { date := some "2020-01-09", value := some (JsonVal.jstr "9.0") }]

/-- An entry whose value is FRED's non-numeric missing-data marker. -/
def fredBad : FredObs := { date := some "2020-01-10", value := some (JsonVal.jstr ".") }

def fredTen : List FredObs := fredNine ++ [fredBad]

/-- C5 counterexample.  A list of nine valid entries and one entry whose
value is non-numeric makes `FREDFetcher.parse_series_data` raise
`ValueError` (after an error-level log), aborting the whole parse — it does
not drop the entry with a warning and it does not yield nine rows. -/
theorem nonnumeric_value_raises_not_drops :
    FREDFetcher.parse_series_data fredTen =
      Except.error "Invalid value in observation." := by
  rfl

/-- C5 amended.  Malformed scalars are not tolerated: an entry with missing
keys, or with an empty, null, or non-numeric value, makes the whole parse
raise (the first conjunct), and only a list whose entries all parse yields
rows — exactly one per entry (the second conjunct). -/
theorem fred_parse_raises_on_bad_scalar (observations : List FredObs) :
    ((∃ o ∈ observations, ∃ m, FREDFetcher.parse_obs o = Except.error m) →
      ∃ m, FREDFetcher.parse_series_data observations = Except.error m) ∧
    ((∀ o ∈ observations, ∃ r, FREDFetcher.parse_obs o = Except.ok r) →
      ∃ rows, FREDFetcher.parse_series_data observations = Except.ok rows ∧
        rows.length = observations.length) := by
  induction observations with
  | nil =>
    constructor
    · rintro ⟨o, ho, _⟩
      cases ho
    · intro _
      exact ⟨[], rfl, rfl⟩
  | cons o rest ih =>
    constructor
    · rintro ⟨o', ho', m, hm⟩
      cases hho : FREDFetcher.parse_obs o with
      | error mh =>
        exact ⟨mh, by rw [FREDFetcher.parse_series_data, hho]⟩
      | ok row =>
        rcases List.mem_cons.mp ho' with rfl | hmem
        · rw [hho] at hm
          cases hm
        · rcases ih.1 ⟨o', hmem, m, hm⟩ with ⟨m2, hm2⟩
          exact ⟨m2, by rw [FREDFetcher.parse_series_data, hho, hm2]⟩
    · intro hall
      cases hho : FREDFetcher.parse_obs o with
      | error mh =>
        rcases hall o (List.mem_cons_self o rest) with ⟨r, hr⟩
        rw [hho] at hr
        cases hr
      | ok row =>
        rcases ih.2 (fun o' ho' => hall o' (List.mem_cons_of_mem o ho')) with
          ⟨rows, hrows, hlen⟩
        exact ⟨row :: rows, by rw [FREDFetcher.parse_series_data, hho, hrows],
          by simp [hlen]⟩

/-- Witness for the amended C5: the ten-entry list with one bad scalar
parses to an error; the nine-entry list of valid scalars parses to nine
rows. -/
theorem fred_parse_raises_on_bad_scalar_witness :
    (∃ m, FREDFetcher.parse_series_data fredTen = Except.error m) ∧
    (∃ rows, FREDFetcher.parse_series_data fredNine = Except.ok rows ∧
      rows.length = fredNine.length) :=
  ⟨(fred_parse_raises_on_bad_scalar fredTen).1
      ⟨fredBad, by decide, "Invalid value in observation.", rfl⟩,
    (fred_parse_raises_on_bad_scalar fredNine).2
      (by intro o ho; fin_cases ho <;> exact ⟨_, rfl⟩)⟩

/-! ### `PolygonFetcher.parse_series_data`

Items carry epoch-millisecond timestamps `t` and OHLCV fields; the parser
requires all six keys, raises on a null timestamp or any null value, and
appends parsed rows in response order.
`datetime.fromtimestamp(t / 1000).strftime('%Y-%m-%d')` is modelled as
integer division by 1000 and then by 86400 (the local-timezone offset of
`fromtimestamp` is ignored).  An outer `Option` models key absence, the
inner one a JSON null. -/

structure PolyItem where
  t : Option (Option Int)
  o : Option (Option Rat)
  h : Option (Option Rat)
  l : Option (Option Rat)
  c : Option (Option Rat)
  v : Option (Option Int)
deriving DecidableEq, Repr

structure PolyObs where
  date : Int
  open_ : Rat
  high : Rat
  low : Rat
  close : Rat
  volume : Int
deriving DecidableEq, Repr

def epoch_ms_to_day (t : Int) : Int := t / 1000 / 86400

def PolygonFetcher.parse_item (it : PolyItem) : Except String PolyObs :=
  match it.t, it.o, it.h, it.l, it.c, it.v with
  | some t0, some o0, some h0, some l0, some c0, some v0 =>
    match t0 with
    | none => Except.error "Invalid timestamp in data item."
    | some ts =>
      match o0, h0, l0, c0, v0 with
      | some op, some hi, some lo, some cl, some vol =>
        Except.ok { date := epoch_ms_to_day ts, open_ := op, high := hi,
                    low := lo, close := cl, volume := vol }
      | _, _, _, _, _ => Except.error "Missing financial data in data item."
  | _, _, _, _, _, _ => Except.error "Missing required keys in data item."

def PolygonFetcher.parse_series_data : List PolyItem → Except String (List PolyObs)
  | [] => Except.ok []
  | it :: rest =>
    match PolygonFetcher.parse_item it with
    | Except.error m => Except.error m
    | Except.ok row =>
      match PolygonFetcher.parse_series_data rest with
      | Except.error m => Except.error m
      | Except.ok rows => Except.ok (row :: rows)

/-! ### `CSVFetcher.fetch_series_data` (economic branch)

A frame row after `pd.to_datetime(df['date'], errors='coerce')`: `none` in
`date` is NaT, `none` in the series column is NaN.  The window mask
`(df['date'] >= start_date) & (df['date'] <= end_date)` is false on NaT, and
`parse_series_data` then drops rows with NaN date or value
(`dropna(subset=['date', series_id])`) and emits `{date, value}` dicts in
frame order. -/

structure CsvRow where
  date : Option Nat
  value : Option Rat
deriving DecidableEq, Repr

structure CsvObs where
  date : Nat
  value : Rat
deriving DecidableEq, Repr

def CSVFetcher.fetch_series_data (df : List CsvRow) (start_date end_date : Nat) :
    List CsvObs :=
  (df.filter fun r =>
    match r.date with
    | some d => decide (start_date ≤ d) && decide (d ≤ end_date)
    | none => false).filterMap fun r =>
      match r.date, r.value with
      | some d, some v => some { date := d, value := v }
      | _, _ => none

/-- A FRED response whose observations are out of order and repeat a date. -/
def fredUnordered : List FredObs :=
  [{ date := some "2020-01-05", value := some (JsonVal.jstr "1") },
   { date := some "2020-01-01", value := some (JsonVal.jstr "2") },
   { date := some "2020-01-01", value := some (JsonVal.jstr "3") }]

def charListLt : List Char → List Char → Bool
  | [], [] => false
  | [], _ :: _ => true
  | _ :: _, [] => false
  | a :: as, b :: bs =>
    if a.toNat < b.toNat then true
    else if b.toNat < a.toNat then false
    else charListLt as bs

/-- Lexicographic string comparison (Python `<` on strings); on ISO-8601
dates it is chronological order. -/
def dateLt (a b : String) : Bool := charListLt a.toList b.toList

/-- Strict date-sortedness of a parsed FRED observation list. -/
def datesStrictSorted : List EconObs → Bool
  | a :: b :: rest => dateLt a.date b.date && datesStrictSorted (b :: rest)
  | _ => true

/-- C8 counterexample.  `fetch_series_data` does not sort or deduplicate:
the FRED adapter returns the parsed response verbatim, so a response whose
observations are out of order and contain a duplicated date yields an output
sequence that is neither ordered by date nor duplicate-free. -/
theorem fetch_output_not_sorted_nor_deduplicated :
    FREDFetcher.parse_series_data fredUnordered =
      Except.ok [{ date := "2020-01-05", value := 1 },
                 { date := "2020-01-01", value := 2 },
                 { date := "2020-01-01", value := 3 }] ∧
    datesStrictSorted [{ date := "2020-01-05", value := 1 },
                 { date := "2020-01-01", value := 2 },
                 { date := "2020-01-01", value := 3 }] = false := by
  constructor
  · rfl
  · rfl

theorem fred_parse_obs_date (o : FredObs) (row : EconObs)
    (h : FREDFetcher.parse_obs o = Except.ok row) : o.date = some row.date := by
  rcases o with ⟨od, ov⟩
  cases od with
  | none =>
    cases ov <;>
      exact Except.noConfusion
        (show (Except.error "Missing required keys in observation." :
            Except String EconObs) = Except.ok row from h)
  | some d =>
    cases ov with
    | none =>
      exact Except.noConfusion
        (show (Except.error "Missing required keys in observation." :
            Except String EconObs) = Except.ok row from h)
    | some v =>
      cases v with
      | jnull =>
        exact Except.noConfusion
          (show (Except.error "Missing value in observation." :
              Except String EconObs) = Except.ok row from h)
      | jstr str =>
        have h2 : (if str = "" then
              (Except.error "Missing value in observation." : Except String EconObs)
            else
              match float_of_string str with
              | none => Except.error "Invalid value in observation."
              | some value => Except.ok { date := d, value := value }) =
            Except.ok row := h
        split at h2
        · exact Except.noConfusion h2
        · split at h2
          · exact Except.noConfusion h2
          · cases h2
            rfl

theorem fred_parse_preserves_order (observations : List FredObs) (rows : List EconObs)
    (h : FREDFetcher.parse_series_data observations = Except.ok rows) :
    rows.map EconObs.date = observations.filterMap FredObs.date := by
  induction observations generalizing rows with
  | nil =>
    rw [FREDFetcher.parse_series_data] at h
    cases h
    rfl
  | cons o rest ih =>
    rw [FREDFetcher.parse_series_data] at h
    cases hho : FREDFetcher.parse_obs o with
    | error m => rw [hho] at h; exact Except.noConfusion h
    | ok row =>
      rw [hho] at h
      cases hrest : FREDFetcher.parse_series_data rest with
      | error m => rw [hrest] at h; exact Except.noConfusion h
      | ok rows2 =>
        rw [hrest] at h
        cases h
        have hd := fred_parse_obs_date o row hho
        simp [List.filterMap_cons, hd, ih rows2 hrest]

/-- The date the polygon parser derives from an item, when the `t` key is
present and non-null. -/
def polyItemDate (it : PolyItem) : Option Int :=
  (it.t.bind id).map epoch_ms_to_day

theorem polygon_parse_item_date (it : PolyItem) (row : PolyObs)
    (h : PolygonFetcher.parse_item it = Except.ok row) :
    polyItemDate it = some row.date := by
  rcases it with ⟨t, o, hh, l, c, v⟩
  unfold PolygonFetcher.parse_item at h
  cases t with
  | none => exact Except.noConfusion h
  | some t0 =>
    cases o with
    | none => exact Except.noConfusion h
    | some o0 =>
      cases hh with
      | none => exact Except.noConfusion h
      | some h0 =>
        cases l with
        | none => exact Except.noConfusion h
        | some l0 =>
          cases c with
          | none => exact Except.noConfusion h
          | some c0 =>
            cases v with
            | none => exact Except.noConfusion h
            | some v0 =>
              cases t0 with
              | none => exact Except.noConfusion h
              | some ts =>
                cases o0 with
                | none => exact Except.noConfusion h
                | some op =>
                  cases h0 with
                  | none => exact Except.noConfusion h
                  | some hi =>
                    cases l0 with
                    | none => exact Except.noConfusion h
                    | some lo =>
                      cases c0 with
                      | none => exact Except.noConfusion h
                      | some cl =>
                        cases v0 with
                        | none => exact Except.noConfusion h
                        | some vol =>
                          cases h
                          rfl

theorem polygon_parse_preserves_order (items : List PolyItem) (rows : List PolyObs)
    (h : PolygonFetcher.parse_series_data items = Except.ok rows) :
    rows.map PolyObs.date =
      items.filterMap polyItemDate := by
  induction items generalizing rows with
  | nil =>
    rw [PolygonFetcher.parse_series_data] at h
    cases h
    rfl
  | cons it rest ih =>
    rw [PolygonFetcher.parse_series_data] at h
    cases hit : PolygonFetcher.parse_item it with
    | error m => rw [hit] at h; exact Except.noConfusion h
    | ok row =>
      rw [hit] at h
      cases hrest : PolygonFetcher.parse_series_data rest with
      | error m => rw [hrest] at h; exact Except.noConfusion h
      | ok rows2 =>
        rw [hrest] at h
        cases h
        have hd := polygon_parse_item_date it row hit
        simp [List.filterMap_cons, hd, ih rows2 hrest]

theorem csv_fetch_in_window (df : List CsvRow) (start_date end_date : Nat) :
    ∀ r ∈ CSVFetcher.fetch_series_data df start_date end_date,
      start_date ≤ r.date ∧ r.date ≤ end_date := by
  intro r hr
  rcases List.mem_filterMap.mp hr with ⟨row, hrow, hmap⟩
  have hfil := (List.mem_filter.mp hrow).2
  rcases row with ⟨rd, rv⟩
  cases rd with
  | none => exact Option.noConfusion hmap
  | some d =>
    cases rv with
    | none => exact Option.noConfusion hmap
    | some v =>
      cases hmap
      simp only [Bool.and_eq_true, decide_eq_true_eq] at hfil
      exact hfil

/-- C8 amended.  No adapter sorts or deduplicates, and the REST adapters do
not re-filter to the requested window: the FRED and Polygon parsers return
exactly one row per response item in response order — the output date
sequence equals the upstream date sequence — while the CSV adapter's mask
keeps only rows with dates inside [start_date, end_date].  Ordering and
uniqueness of the returned dates therefore hold exactly when the upstream
response (or file) provides them. -/
theorem adapters_preserve_upstream_order :
    (∀ (observations : List FredObs) (rows : List EconObs),
      FREDFetcher.parse_series_data observations = Except.ok rows →
      rows.map EconObs.date = observations.filterMap FredObs.date) ∧
    (∀ (items : List PolyItem) (rows : List PolyObs),
      PolygonFetcher.parse_series_data items = Except.ok rows →
      rows.map PolyObs.date = items.filterMap polyItemDate) ∧
    (∀ (df : List CsvRow) (s e : Nat), ∀ r ∈ CSVFetcher.fetch_series_data df s e,
      s ≤ r.date ∧ r.date ≤ e) :=
  ⟨fred_parse_preserves_order, polygon_parse_preserves_order, csv_fetch_in_window⟩

def polyOne : List PolyItem :=
  [{ t := some (some 172800000), o := some (some 1), h := some (some 2),
     l := some (some 1), c := some (some 2), v := some (some 9) }]

def dfCsv : List CsvRow :=
  [{ date := some 7, value := some 3 },
   { date := some 100, value := some 4 },
   { date := none, value := some 5 }]

/-- Witness for the amended C8 at concrete inputs for all three adapters. -/
theorem adapters_preserve_upstream_order_witness :
    (([{ date := "2020-01-05", value := 1 }, { date := "2020-01-01", value := 2 },
       { date := "2020-01-01", value := 3 }] : List EconObs).map EconObs.date =
      fredUnordered.filterMap FredObs.date) ∧
    (([{ date := 2, open_ := 1, high := 2, low := 1, close := 2, volume := 9 }] :
        List PolyObs).map PolyObs.date =
      polyOne.filterMap polyItemDate) ∧
    (5 ≤ ({ date := 7, value := 3 } : CsvObs).date ∧
      ({ date := 7, value := 3 } : CsvObs).date ≤ 9) :=
  ⟨adapters_preserve_upstream_order.1 fredUnordered
      [{ date := "2020-01-05", value := 1 }, { date := "2020-01-01", value := 2 },
       { date := "2020-01-01", value := 3 }] (by rfl),
    adapters_preserve_upstream_order.2.1 polyOne
      [{ date := 2, open_ := 1, high := 2, low := 1, close := 2, volume := 9 }] (by rfl),
    adapters_preserve_upstream_order.2.2 dfCsv 5 9 { date := 7, value := 3 } (by decide)⟩

/-! ### `data_pipeline/tasks.py`

`fetch_and_store_single_series` resolves the API key, then either updates an
existing catalog row (`DataSeries.objects.get` succeeds) or — on
`DataSeries.DoesNotExist` — runs `save_metadata` and an initial
`save_series_data`.  In both branches an exception from the fetch/stage/merge
path is logged and then re-raised (`raise e`).
`fetch_and_store_multiple_series` loops over the items with no try/except
around the per-item call. -/

structure SeriesMetadata where
  id : String
  title : String
  observation_start : String
  observation_end : String
  frequency : String
  units : String
  seasonal_adjustment : String
  last_updated : Nat
  notes : String
deriving DecidableEq, Repr

/-- `DataFetcher.save_metadata` on the create path (`update_or_create`
finding no existing row): the descriptor is built from the fetched metadata
and starts without a watermark. -/
def save_metadata (metadata : SeriesMetadata) (data_type data_origin : String) :
    DataSeries :=
  { series_id := metadata.id, name := metadata.title,
    observation_start := metadata.observation_start,
    observation_end := metadata.observation_end,
    frequency := metadata.frequency, units := metadata.units,
    seasonal_adjustment := metadata.seasonal_adjustment,
    notes := metadata.notes, data_type := data_type, data_origin := data_origin,
    last_fetched_date := none, last_updated := metadata.last_updated }

/-- An entry of the batch input list; `none` models a missing dict key. -/
structure SeriesItem where
  series_id : Option String
  data_origin : Option String
  data_type : Option String
deriving DecidableEq, Repr

/-- Oracles for one `fetch_and_store_single_series` call: whether the API
key lookup succeeds, the outcome of `fetch_metadata` (for the new-series
branch), and the oracles of the inner `save_series_data` call. -/
structure TaskEnv where
  api_key_found : Bool
  metadataResult : Except Unit SeriesMetadata
  fetchEnv : FetchEnv

/-- The catalog row for the item's series and the warehouse, plus a count of
`save_metadata` invocations performed so far. -/
structure PipelineState where
  series : Option DataSeries
  wh : Warehouse
  metadata_saves : Nat

def fetch_and_store_single_series (env : TaskEnv) (item : SeriesItem)
    (st : PipelineState) : PipelineState × Except Unit Unit :=
  match item.series_id, item.data_origin, item.data_type with
  | some _, some origin, some dtype =>
    if env.api_key_found = false then (st, Except.ok ())
    else
      match st.series with
      | some inst =>
        ({ st with
            series := some (save_series_data env.fetchEnv inst false st.wh).2.1,
            wh := (save_series_data env.fetchEnv inst false st.wh).1 },
          (save_series_data env.fetchEnv inst false st.wh).2.2)
      | none =>
        match env.metadataResult with
        | Except.error _ => (st, Except.error ())
        | Except.ok md =>
          ({ series := some
              (save_series_data env.fetchEnv (save_metadata md dtype origin) true st.wh).2.1,
             wh := (save_series_data env.fetchEnv (save_metadata md dtype origin) true st.wh).1,
             metadata_saves := st.metadata_saves + 1 },
            (save_series_data env.fetchEnv (save_metadata md dtype origin) true st.wh).2.2)
  | _, _, _ => (st, Except.ok ())

/-- The batch loop, one oracle environment and state per item; the loop body
has no try/except, so a raising item aborts the loop.  Returns the number of
items that were processed and the loop's outcome. -/
def fetch_and_store_multiple_series :
    List (TaskEnv × SeriesItem × PipelineState) → Nat × Except Unit Unit
  | [] => (0, Except.ok ())
  | (env, item, st) :: rest =>
    match (fetch_and_store_single_series env item st).2 with
    | Except.error e => (1, Except.error e)
    | Except.ok _ =>
      ((fetch_and_store_multiple_series rest).1 + 1,
        (fetch_and_store_multiple_series rest).2)

def envFetchError : FetchEnv :=
  { today := 11000, fetchResult := Except.error (), loadOk := true,
    mergeOk := true, now_ts := 1 }

def itemGDP : SeriesItem :=
  { series_id := some "GDP", data_origin := some "fred",
    data_type := some "economic" }

def stGDP : PipelineState :=
  { series := some instGDP, wh := whEmpty, metadata_saves := 0 }

/-- A task environment whose upstream fetch fails. -/
def taskFail : TaskEnv :=
  { api_key_found := true, metadataResult := Except.error (),
    fetchEnv := envFetchError }

/-- A task environment where fetch, load and merge all succeed. -/
def taskOk : TaskEnv :=
  { api_key_found := true, metadataResult := Except.error (),
    fetchEnv := envMergeOk }

/-- C6 counterexample.  The per-series task re-raises caught exceptions
(`raise e`) and the batch loop has no try/except around it: with a first
item whose fetch fails and a second, healthy item, the exception propagates
out of the batch loop after only the first item, and the second item — which
on its own would succeed — is never processed. -/
theorem batch_aborted_by_single_failure :
    fetch_and_store_multiple_series
        [(taskFail, itemGDP, stGDP), (taskOk, itemGDP, stGDP)] =
      (1, Except.error ()) ∧
    (fetch_and_store_single_series taskOk itemGDP stGDP).2 = Except.ok () := by
  constructor
  · rfl
  · rfl

theorem batch_all_ok_processes_all (jobs : List (TaskEnv × SeriesItem × PipelineState))
    (hall : ∀ j ∈ jobs,
      (fetch_and_store_single_series j.1 j.2.1 j.2.2).2 = Except.ok ()) :
    fetch_and_store_multiple_series jobs = (jobs.length, Except.ok ()) := by
  induction jobs with
  | nil => rfl
  | cons j rest ih =>
    rcases j with ⟨env, item, st⟩
    have h1 := hall _ (List.mem_cons_self _ _)
    rw [fetch_and_store_multiple_series, h1,
      ih (fun j hj => hall j (List.mem_cons_of_mem _ hj))]
    simp

/-- C6 amended.  Failures are not isolated: the batch driver processes items
sequentially, and a per-item exception is re-raised by
`fetch_and_store_single_series` with no try/except in the loop, so the first
raising item aborts the batch with the remaining items unprocessed; only
when every item succeeds does the batch process them all. -/
theorem batch_stops_at_first_failing_item
    (jobs : List (TaskEnv × SeriesItem × PipelineState)) :
    (∀ env item st rest, jobs = (env, item, st) :: rest →
      (fetch_and_store_single_series env item st).2 = Except.error () →
      fetch_and_store_multiple_series jobs = (1, Except.error ())) ∧
    ((∀ j ∈ jobs,
        (fetch_and_store_single_series j.1 j.2.1 j.2.2).2 = Except.ok ()) →
      fetch_and_store_multiple_series jobs = (jobs.length, Except.ok ())) := by
  constructor
  · rintro env item st rest rfl h
    rw [fetch_and_store_multiple_series, h]
  · exact batch_all_ok_processes_all jobs

/-- Witness for the amended C6: the failing batch aborts at the first item;
the batch of one healthy item processes it. -/
theorem batch_stops_at_first_failing_item_witness :
    fetch_and_store_multiple_series
        [(taskFail, itemGDP, stGDP), (taskOk, itemGDP, stGDP)] =
      (1, Except.error ()) ∧
    fetch_and_store_multiple_series [(taskOk, itemGDP, stGDP)] =
      ([(taskOk, itemGDP, stGDP)].length, Except.ok ()) :=
  ⟨(batch_stops_at_first_failing_item
        [(taskFail, itemGDP, stGDP), (taskOk, itemGDP, stGDP)]).1
      taskFail itemGDP stGDP [(taskOk, itemGDP, stGDP)] rfl (by rfl),
    (batch_stops_at_first_failing_item [(taskOk, itemGDP, stGDP)]).2
      (by intro j hj; fin_cases hj; rfl)⟩

theorem save_series_data_static_fields (env : FetchEnv) (inst : DataSeries)
    (init : Bool) (wh : Warehouse) :
    ∃ d t, (save_series_data env inst init wh).2.1 =
      { inst with last_fetched_date := d, last_updated := t } := by
  rcases save_series_data_shape env inst init wh with h | h | ⟨obs, _, hc⟩
  · exact ⟨inst.last_fetched_date, inst.last_updated, by rw [h]⟩
  · exact ⟨inst.last_fetched_date, inst.last_updated, by rw [h]⟩
  · rcases hc with ⟨_, _, h | ⟨_, _, h⟩⟩ | ⟨_, _, h | ⟨_, _, h⟩⟩
    · exact ⟨inst.last_fetched_date, inst.last_updated, by rw [h]⟩
    · exact ⟨some (max_date_fin (staging_rows_fin inst init obs)), env.now_ts, by rw [h]⟩
    · exact ⟨inst.last_fetched_date, inst.last_updated, by rw [h]⟩
    · exact ⟨some (max_date_econ (staging_rows_econ inst init obs)), env.now_ts, by rw [h]⟩

/-- C10.  A batch run with an existing descriptor never invokes the metadata
upsert (`save_metadata` runs only in the `DataSeries.DoesNotExist` branch)
and leaves every metadata field of the descriptor — series_id, name,
observation range, frequency, units, seasonal adjustment, notes, data type
and origin — unchanged; only the watermark (`last_fetched_date`) and
`last_updated` can differ after the run. -/
theorem existing_series_metadata_untouched (env : TaskEnv) (item : SeriesItem)
    (st : PipelineState) (inst : DataSeries) (h : st.series = some inst) :
    (fetch_and_store_single_series env item st).1.metadata_saves =
      st.metadata_saves ∧
    ∃ inst', (fetch_and_store_single_series env item st).1.series = some inst' ∧
      inst'.series_id = inst.series_id ∧ inst'.name = inst.name ∧
      inst'.observation_start = inst.observation_start ∧
      inst'.observation_end = inst.observation_end ∧
      inst'.frequency = inst.frequency ∧ inst'.units = inst.units ∧
      inst'.seasonal_adjustment = inst.seasonal_adjustment ∧
      inst'.notes = inst.notes ∧ inst'.data_type = inst.data_type ∧
      inst'.data_origin = inst.data_origin := by
  rcases item with ⟨sid, origin, dtype⟩
  cases sid with
  | none => exact ⟨rfl, inst, h, rfl, rfl, rfl, rfl, rfl, rfl, rfl, rfl, rfl, rfl⟩
  | some s =>
    cases origin with
    | none => exact ⟨rfl, inst, h, rfl, rfl, rfl, rfl, rfl, rfl, rfl, rfl, rfl, rfl⟩
    | some og =>
      cases dtype with
      | none => exact ⟨rfl, inst, h, rfl, rfl, rfl, rfl, rfl, rfl, rfl, rfl, rfl, rfl⟩
      | some dt =>
        by_cases hk : env.api_key_found = false
        · simp only [fetch_and_store_single_series, if_pos hk]
          exact ⟨trivial, inst, h, rfl, rfl, rfl, rfl, rfl, rfl, rfl, rfl, rfl, rfl⟩
        · simp only [fetch_and_store_single_series, if_neg hk, h]
          rcases save_series_data_static_fields env.fetchEnv inst false st.wh with
            ⟨d, t, hst⟩
          exact ⟨trivial, { inst with last_fetched_date := d, last_updated := t },
            by rw [hst], rfl, rfl, rfl, rfl, rfl, rfl, rfl, rfl, rfl, rfl⟩

/-- Witness for C10 at a concrete existing series and successful run. -/
theorem existing_series_metadata_untouched_witness :
    (fetch_and_store_single_series taskOk itemGDP stGDP).1.metadata_saves =
      stGDP.metadata_saves ∧
    ∃ inst', (fetch_and_store_single_series taskOk itemGDP stGDP).1.series =
        some inst' ∧
      inst'.series_id = instGDP.series_id ∧ inst'.name = instGDP.name ∧
      inst'.observation_start = instGDP.observation_start ∧
      inst'.observation_end = instGDP.observation_end ∧
      inst'.frequency = instGDP.frequency ∧ inst'.units = instGDP.units ∧
      inst'.seasonal_adjustment = instGDP.seasonal_adjustment ∧
      inst'.notes = instGDP.notes ∧ inst'.data_type = instGDP.data_type ∧
      inst'.data_origin = instGDP.data_origin :=
  existing_series_metadata_untouched taskOk itemGDP stGDP instGDP rfl
